import Mathlib

/-!
Verification of the SV30 settling-test pipeline (sludge interface detection,
outlier rejection, trimmed averaging, final metrics, acquisition retry and
vessel-mask derivation) against its natural-language specification.

The Python sources are shallowly embedded:
* grayscale images become an `Img` structure (height, width, total pixel
  function); pixel values are natural numbers;
* NumPy float means / medians are modelled exactly over `ℚ`;
* Python `int(...)` truncation of a non-negative float mean is natural
  division;
* wall-clock durations in the recorder are modelled as integer seconds, and
  the camera device is abstracted as a script of attempt outcomes;
* fallible code (Python exceptions such as `ZeroDivisionError`) returns
  `Option`.
-/

/-- A detected interface point, `{"x": x, "y": y}` in
`sludge_detect.top_down_scan_in_top_50`. -/
structure Dot where
  x : ℕ
  y : ℕ
deriving DecidableEq, Repr

/-- A grayscale image as used by `sludge_detect` (`binary_image` with
`h, w = binary_image.shape`); `pix r c` is the pixel value at row `r`,
column `c` (numpy indexing `binary_image[r, c]`). -/
structure Img where
  h : ℕ
  w : ℕ
  pix : ℕ → ℕ → ℕ

/-- `BLACK_PIXELS_REQUIRED = 5` in sludge_detect.py. -/
def BLACK_PIXELS_REQUIRED : ℕ := 5

/-- `SCAN_DEPTH_PCT = 50` in sludge_detect.py. -/
def SCAN_DEPTH_PCT : ℕ := 50

/-- `OUTLIER_THRESHOLD_EXTREME = 100` (pixels) in sludge_detect.py. -/
def OUTLIER_THRESHOLD_EXTREME : ℕ := 100

/-- `OUTLIER_THRESHOLD_MODERATE = 30` (pixels) in sludge_detect.py. -/
def OUTLIER_THRESHOLD_MODERATE : ℕ := 30

/-- `BEAKER_HEIGHT_MM = 214.0` in calculate_metrics.py. -/
def BEAKER_HEIGHT_MM : ℚ := 214

/-- `TEST_DURATION_MIN = 35.0` in calculate_metrics.py. -/
def TEST_DURATION_MIN : ℚ := 35

/-! ### Mixture-top detection (`sludge_detect.detect_mixture_top`) -/

/-- `np.mean(binary_image[y, :])`: average brightness of row `y`. -/
def rowBrightness (img : Img) (y : ℕ) : ℚ :=
  (((List.range img.w).map fun x => (img.pix y x : ℚ)).sum) / img.w

/-- `roi_height = int(h * search_region)` with `search_region = 0.6`. -/
def roiHeight (img : Img) : ℕ := 3 * img.h / 5

/-- Minimum of a list of rationals (`0` on the empty list, never used there);
models the minimum that `np.argmin` locates. -/
def listMin : List ℚ → ℚ
  | [] => 0
  | a :: l => if l.isEmpty then a else min a (listMin l)

/-- `np.argmin`: the index of the first occurrence of the minimum value
(`0` on the empty list; NumPy raises there and the code never hits it). -/
def argminFirst : List ℚ → ℕ
  | [] => 0
  | a :: l => if l.isEmpty then 0 else if a ≤ listMin l then 0 else argminFirst l + 1

/-- `gradient = np.diff(row_brightness)` over the top `roi_height` rows. -/
def brightnessGradient (img : Img) : List ℚ :=
  (List.range (roiHeight img - 1)).map fun i =>
    rowBrightness img (i + 1) - rowBrightness img i

/-- `sludge_detect.detect_mixture_top`: `max_drop_idx = np.argmin(gradient)`,
returns `max_drop_idx + 1`. -/
def detect_mixture_top (img : Img) : ℕ :=
  argminFirst (brightnessGradient img) + 1

/-! ### Per-frame top-down scan (`sludge_detect.top_down_scan_in_top_50`) -/

/-- The inner loop `for offset in range(1, BLACK_PIXELS_REQUIRED + 1)`:
true iff the `BLACK_PIXELS_REQUIRED` pixels directly below `(y, x)` are all
black (`0`). -/
def hasBlackRunBelow (img : Img) (x y : ℕ) : Bool :=
  (List.range' 1 BLACK_PIXELS_REQUIRED).all fun o => img.pix (y + o) x == 0

/-- The scan-loop body test: the pixel at `(y, x)` is white (`255`) and has
the required run of black pixels below it. -/
def isInterfacePixel (img : Img) (x y : ℕ) : Bool :=
  img.pix y x == 255 && hasBlackRunBelow img x y

/-- `scan_stop_y = mixture_top_y + int(mixture_height * (SCAN_DEPTH_PCT / 100))`
with `mixture_height = h - mixture_top_y`. -/
def scanStopY (img : Img) (mixtureTopY : ℕ) : ℕ :=
  mixtureTopY + (img.h - mixtureTopY) * SCAN_DEPTH_PCT / 100

/-- One scan line of `top_down_scan_in_top_50`: the loop
`for y in range(mixture_top_y, min(scan_stop_y, h - BLACK_PIXELS_REQUIRED))`
returning the first `y` whose pixel is white with the black run below, or
nothing (`break` on first hit models the `Option`). -/
def scanLine (img : Img) (mixtureTopY x : ℕ) : Option ℕ :=
  (List.range' mixtureTopY
      (min (scanStopY img mixtureTopY) (img.h - BLACK_PIXELS_REQUIRED) - mixtureTopY)).find?
    fun y => isInterfacePixel img x y

/-- `sludge_detect.top_down_scan_in_top_50`: one candidate dot per scan line
at most, appended in scan-line order. -/
def top_down_scan (img : Img) (mixtureTopY : ℕ) (xPositions : List ℕ) : List Dot :=
  xPositions.filterMap fun x => (scanLine img mixtureTopY x).map fun y => ⟨x, y⟩

/-! ### Two-stage outlier rejection (`sludge_detect.reject_outliers`) -/

/-- `np.median` of a list of naturals, computed exactly over `ℚ`: sort, take
the middle element (odd length) or the mean of the two middle elements (even
length). `0` on the empty list (NumPy returns NaN there; the code never takes
a median of an empty list). -/
def medianQ (l : List ℕ) : ℚ :=
  let s := List.insertionSort (· ≤ ·) l
  if l.length % 2 = 1 then (s.getD (l.length / 2) 0 : ℚ)
  else ((s.getD (l.length / 2 - 1) 0 : ℚ) + (s.getD (l.length / 2) 0 : ℚ)) / 2

/-- `sludge_detect.reject_outliers`: stage 1 keeps dots within
`OUTLIER_THRESHOLD_EXTREME` of the median y; if none survive it returns
`([], red_dots)`; stage 2 keeps stage-1 survivors within
`OUTLIER_THRESHOLD_MODERATE` of the recomputed median.  Returns
`(final_valid, all_rejected)`. -/
def reject_outliers (red_dots : List Dot) : List Dot × List Dot :=
  if red_dots = [] then ([], [])
  else
    let median_y := medianQ (red_dots.map Dot.y)
    let stage1_valid := red_dots.filter fun d =>
      |(d.y : ℚ) - median_y| ≤ (OUTLIER_THRESHOLD_EXTREME : ℚ)
    let stage1_rejected := red_dots.filter fun d =>
      ¬ |(d.y : ℚ) - median_y| ≤ (OUTLIER_THRESHOLD_EXTREME : ℚ)
    if stage1_valid = [] then ([], red_dots)
    else
      let new_median_y := medianQ (stage1_valid.map Dot.y)
      let final_valid := stage1_valid.filter fun d =>
        |(d.y : ℚ) - new_median_y| ≤ (OUTLIER_THRESHOLD_MODERATE : ℚ)
      let stage2_rejected := stage1_valid.filter fun d =>
        ¬ |(d.y : ℚ) - new_median_y| ≤ (OUTLIER_THRESHOLD_MODERATE : ℚ)
      (final_valid, stage1_rejected ++ stage2_rejected)

/-! ### Trimmed averaging (`sludge_detect.average_6_closest`) -/

/-- `sorted(valid_dots, key=lambda d: d['y'])` — Python's stable sort by y,
modelled by stable insertion sort. -/
def sortByY (dots : List Dot) : List Dot :=
  List.insertionSort (fun a b => a.y ≤ b.y) dots

/-- `sludge_detect.average_6_closest`: selects the dots to average by the
count-dependent trimming table, then returns
`int(np.mean(ys))` — natural division models the truncation of the
non-negative mean — together with the selected dots. -/
def average_6_closest (valid_dots : List Dot) : ℕ × List Dot :=
  let n := valid_dots.length
  let dots_to_average :=
    if n < 6 then valid_dots
    else if n = 6 then valid_dots
    else if n = 7 then
      let s := sortByY valid_dots
      let median_y := medianQ (s.map Dot.y)
      let dist_top := |((s.headD ⟨0, 0⟩).y : ℚ) - median_y|
      let dist_bottom := |((s.getLastD ⟨0, 0⟩).y : ℚ) - median_y|
      if dist_bottom < dist_top then s.drop 1 else s.dropLast
    else if n = 8 then ((sortByY valid_dots).drop 1).dropLast
    else (((sortByY valid_dots).drop 2).dropLast).dropLast
  let ys := dots_to_average.map Dot.y
  (ys.sum / ys.length, dots_to_average)

/-- `sludge_detect.calculate_sv30`: clamps to `0.0` when
`mixture_height <= 0`, otherwise `(sludge_height / mixture_height) * 100`. -/
def calculate_sv30 (mixture_top_y sludge_y image_height : ℤ) : ℚ :=
  let sludge_height := sludge_y - mixture_top_y
  let mixture_height := image_height - mixture_top_y
  if mixture_height ≤ 0 then 0
  else ((sludge_height : ℚ) / (mixture_height : ℚ)) * 100

/-- The per-frame body of `sludge_detect.process_all` (scan, reject, average,
SV30): when no valid dots remain the frame falls back to
`final_sludge_y = mixture_top_y` with `sv30_pct = 0.0`. -/
def detectFrame (img : Img) (mixtureTopY : ℕ) (xPositions : List ℕ) : ℕ × ℚ :=
  let red_dots := top_down_scan img mixtureTopY xPositions
  let valid_dots := (reject_outliers red_dots).1
  if valid_dots = [] then (mixtureTopY, 0)
  else
    let fy := (average_6_closest valid_dots).1
    (fy, calculate_sv30 (mixtureTopY : ℤ) (fy : ℤ) (img.h : ℤ))

/-- Spec-side helper: minimum of a list of naturals (`0` on `[]`). -/
def minYN : List ℕ → ℕ
  | [] => 0
  | a :: l => if l.isEmpty then a else min a (minYN l)

/-- Spec-side helper: maximum of a list of naturals (`0` on `[]`). -/
def maxYN : List ℕ → ℕ
  | [] => 0
  | a :: l => if l.isEmpty then a else max a (maxYN l)

/-! ### Final metrics (`calculate_metrics.calculate_metrics`) -/

/-- The numeric record built by `calculate_metrics.calculate_metrics`
(before its 2-decimal rounding for the JSON file). -/
structure Metrics where
  px_to_mm : ℚ
  mixture_height_mm : ℚ
  sludge_height_t30_mm : ℚ
  clear_liquid_height_mm : ℚ
  sv30_pct : ℚ
  sv30_mL_per_L : ℚ
  settling_rate_mm_per_min : ℚ

/-- The arithmetic core of `calculate_metrics.calculate_metrics`, as a
function of the image height in pixels, the mixture-top row and the
last frame's `sludge_interface_y`.  Pixel differences are Python ints,
so they are taken in `ℚ` after casting each operand. -/
def calculate_metrics_core (image_height_px mixture_top_y t30_sludge_interface_y : ℕ) :
    Metrics :=
  let px_to_mm := BEAKER_HEIGHT_MM / (image_height_px : ℚ)
  let mixture_height_mm := ((image_height_px : ℚ) - (mixture_top_y : ℚ)) * px_to_mm
  let t30_sludge_height_mm :=
    ((image_height_px : ℚ) - (t30_sludge_interface_y : ℚ)) * px_to_mm
  let clear_liquid_height_mm :=
    ((t30_sludge_interface_y : ℚ) - (mixture_top_y : ℚ)) * px_to_mm
  let sv30_pct := t30_sludge_height_mm / mixture_height_mm * 100
  { px_to_mm := px_to_mm
    mixture_height_mm := mixture_height_mm
    sludge_height_t30_mm := t30_sludge_height_mm
    clear_liquid_height_mm := clear_liquid_height_mm
    sv30_pct := sv30_pct
    sv30_mL_per_L := sv30_pct * 10
    settling_rate_mm_per_min := clear_liquid_height_mm / TEST_DURATION_MIN }

/-- The SV30 division of `calculate_metrics` with Python's failure behaviour
made explicit: `t30_sludge_height_mm / mixture_height_mm` raises
`ZeroDivisionError` exactly when `mixture_height_mm` is zero, modelled as
`none`; there is no guard and no clamping in the source. -/
def metrics_sv30_checked (image_height_px mixture_top_y t30_sludge_interface_y : ℕ) :
    Option ℚ :=
  let px_to_mm := BEAKER_HEIGHT_MM / (image_height_px : ℚ)
  let mixture_height_mm := ((image_height_px : ℚ) - (mixture_top_y : ℚ)) * px_to_mm
  let t30_sludge_height_mm :=
    ((image_height_px : ℚ) - (t30_sludge_interface_y : ℚ)) * px_to_mm
  if mixture_height_mm = 0 then none
  else some (t30_sludge_height_mm / mixture_height_mm * 100)

/-! ### Video capture with retry (`video_capture.VideoRecorder`)

Durations and wall-clock times are modelled as integer seconds (the config
constants `VIDEO_DURATION_SEC = 2100` and `VIDEO_BUFFER_SEC = 300` are
integers; only ordering and addition of durations matter to the retry
logic).  The camera device is abstracted as a script of attempt outcomes.
Signal-driven interruption (`self.running`) is outside the embedding: we
model the recorder with `running` always true. -/

/-- Outcome of one `record_video_rtsp` call: whether it succeeded, the
`actual_duration` it reported, and the wall-clock seconds the attempt
consumed (as observed by `time.time()` in `record_with_retry`). -/
structure RtspAttempt where
  ok : Bool
  duration : ℤ
  cost : ℤ
deriving DecidableEq, Repr

/-- Result of a recording run: the returned success flag, the cumulative
recorded duration, and how many recording attempts were made. -/
structure RetryOutcome where
  success : Bool
  total : ℤ
  attempts : ℕ
deriving DecidableEq, Repr

/-- Abstract USB camera device for `record_video_usb`: whether
`cv2.VideoCapture` opens, whether the `VideoWriter` opens, the wall-clock
cost of each read-loop iteration, and whether the finished file passes the
`> 1 MB` size check. -/
structure UsbDevice where
  openOk : Bool
  writerOk : Bool
  readCosts : List ℤ
  fileOk : Bool
deriving DecidableEq, Repr

/-- The `while self.running:` read loop of `record_video_usb`: the loop
exits when `elapsed >= duration_sec`; each iteration advances the clock by
the next read cost.  `none` when the iteration script is exhausted before
the duration is reached (the loop would still be running). -/
def usbLoop (duration_sec : ℤ) : ℤ → List ℤ → Option ℤ
  | elapsed, costs =>
    if duration_sec ≤ elapsed then some elapsed
    else
      match costs with
      | [] => none
      | c :: rest => usbLoop duration_sec (elapsed + c) rest

/-- `video_capture.VideoRecorder.record_video_usb`: a single recording
session; returns `(success, actual_duration)`.  Failure to open the camera
or the writer returns `(False, 0)`; after the loop the file-size check
decides success. -/
def record_video_usb (dev : UsbDevice) (duration_sec : ℤ) : Option (Bool × ℤ) :=
  if ¬ dev.openOk then some (false, 0)
  else if ¬ dev.writerOk then some (false, 0)
  else
    match usbLoop duration_sec 0 dev.readCosts with
    | none => none
    | some d => if dev.fileOk then some (true, d) else some (false, 0)

/-- The RTSP retry loop of `record_with_retry`: while
`total_recorded < target_duration`, check the time budget
(`elapsed_total > max_total_time` fails the run), then run the next attempt
for the remaining seconds; a successful attempt adds its duration (plus a
2-second sleep before the next round), a failed attempt costs a 10-second
sleep.  The final return value is `(video_path is not None, video_path)`:
success is whether any attempt ever produced a file.  `none` when the
attempt script is exhausted with the loop still running. -/
def rtspLoop (target max_total : ℤ) :
    List RtspAttempt → ℤ → ℤ → Bool → ℕ → Option RetryOutcome
  | script, elapsed, total, hasPath, attempts =>
    if target ≤ total then some ⟨hasPath, total, attempts⟩
    else if max_total < elapsed then some ⟨false, total, attempts⟩
    else
      match script with
      | [] => none
      | a :: rest =>
        if a.ok then
          let total' := total + a.duration
          if target ≤ total' then some ⟨true, total', attempts + 1⟩
          else rtspLoop target max_total rest (elapsed + a.cost + 2) total' true (attempts + 1)
        else rtspLoop target max_total rest (elapsed + a.cost + 10) total hasPath (attempts + 1)

/-- `CAM1_TYPE` in sv30config.py: `"USB"` or `"RTSP"`. -/
inductive CamType
  | usb
  | rtsp
deriving DecidableEq, Repr

/-- `video_capture.VideoRecorder.record_with_retry`:
`max_total_time = VIDEO_DURATION_SEC + VIDEO_BUFFER_SEC`.  USB cameras
record in a single session with no retry; RTSP cameras run the retry
loop. -/
def record_with_retry (cam : CamType) (dev : UsbDevice) (script : List RtspAttempt)
    (target buffer : ℤ) : Option RetryOutcome :=
  match cam with
  | CamType.usb => (record_video_usb dev target).map fun r => ⟨r.1, r.2, 1⟩
  | CamType.rtsp => rtspLoop target (target + buffer) script 0 0 false 0

/-! ### Beaker masking (`mask_beaker.process_all`) -/

/-- Result of one run of `mask_beaker.process_all` over frame contents:
the list of frames passed to the external segmentation capability
(`create_beaker_mask` / rembg), the index of the designated reference
frame, and the masked outputs. -/
structure MaskRunResult (F : Type) where
  segCalls : List F
  refIdx : ℕ
  outputs : List F
deriving Repr

/-- `mask_beaker.process_all` over the list of frame contents, abstracting
the external segmentation capability as `seg` and mask application
(`apply_mask_to_image`) as `applyMask`: returns `none` for an empty frame
list (early error return); otherwise derives one mask from the frame at
`mask_frame_idx` (`0` when fewer than two frames, else `1`) and applies that
single mask to every frame. -/
def mask_process_all {F M : Type} (seg : F → M) (applyMask : F → M → F)
    (frames : List F) : Option (MaskRunResult F) :=
  match frames with
  | [] => none
  | f :: rest =>
    let mask_frame_idx := if (f :: rest).length < 2 then 0 else 1
    let mask_frame := (f :: rest).getD mask_frame_idx f
    let beaker_mask := seg mask_frame
    some ⟨[mask_frame], mask_frame_idx, (f :: rest).map fun fr => applyMask fr beaker_mask⟩

/-! ## Claim statement definitions -/

/-- Statement of claim C3: the final-metrics formulas, including the
equivalence of the code's `clear_liquid_height_mm / TEST_DURATION_MIN`
settling rate with the spec's
`(mixture_height − final_interface_height) / run_duration_minutes`, and the
spec's numeric example. -/
def C3Statement (image_height_px mixture_top_y t30_y : ℕ) : Prop :=
  (calculate_metrics_core image_height_px mixture_top_y t30_y).px_to_mm =
      BEAKER_HEIGHT_MM / (image_height_px : ℚ) ∧
  (calculate_metrics_core image_height_px mixture_top_y t30_y).sludge_height_t30_mm =
      ((image_height_px : ℚ) - (t30_y : ℚ)) *
        (calculate_metrics_core image_height_px mixture_top_y t30_y).px_to_mm ∧
  (calculate_metrics_core image_height_px mixture_top_y t30_y).mixture_height_mm =
      ((image_height_px : ℚ) - (mixture_top_y : ℚ)) *
        (calculate_metrics_core image_height_px mixture_top_y t30_y).px_to_mm ∧
  (calculate_metrics_core image_height_px mixture_top_y t30_y).sv30_pct =
      (calculate_metrics_core image_height_px mixture_top_y t30_y).sludge_height_t30_mm /
        (calculate_metrics_core image_height_px mixture_top_y t30_y).mixture_height_mm * 100 ∧
  (calculate_metrics_core image_height_px mixture_top_y t30_y).sv30_mL_per_L =
      (calculate_metrics_core image_height_px mixture_top_y t30_y).sv30_pct * 10 ∧
  (calculate_metrics_core image_height_px mixture_top_y t30_y).settling_rate_mm_per_min =
      ((calculate_metrics_core image_height_px mixture_top_y t30_y).mixture_height_mm -
          (calculate_metrics_core image_height_px mixture_top_y t30_y).sludge_height_t30_mm) /
        TEST_DURATION_MIN ∧
  ((calculate_metrics_core image_height_px mixture_top_y t30_y).mixture_height_mm = 200 →
    (calculate_metrics_core image_height_px mixture_top_y t30_y).sludge_height_t30_mm = 120 →
    (calculate_metrics_core image_height_px mixture_top_y t30_y).sv30_pct = 60 ∧
      (calculate_metrics_core image_height_px mixture_top_y t30_y).sv30_mL_per_L = 600)

/-- The spec-level candidate condition of §4.5: the pixel at `(y, x)` is
bright (255) and is immediately followed by `BLACK_PIXELS_REQUIRED`
consecutive dark (0) pixels directly below it on the same column, all of
which lie inside the image. -/
def isCandidatePixelSpec (img : Img) (x y : ℕ) : Prop :=
  img.pix y x = 255 ∧
  (∀ o, 1 ≤ o → o ≤ BLACK_PIXELS_REQUIRED → img.pix (y + o) x = 0) ∧
  y + BLACK_PIXELS_REQUIRED < img.h

/-- Statement of claim C5: the candidate for a scan line is exactly the
topmost pixel in the window from the mixture top to 50% of the mixture
depth that satisfies the bright-with-dark-run condition, and the line
contributes no candidate exactly when no such pixel exists. -/
def C5Statement (img : Img) (mixtureTopY x : ℕ) : Prop :=
  (∀ y, scanLine img mixtureTopY x = some y ↔
    (mixtureTopY ≤ y ∧ y < scanStopY img mixtureTopY ∧
      isCandidatePixelSpec img x y ∧
      ∀ z, mixtureTopY ≤ z → z < y → ¬ isCandidatePixelSpec img x z)) ∧
  (scanLine img mixtureTopY x = none ↔
    ∀ y, mixtureTopY ≤ y → y < scanStopY img mixtureTopY →
      ¬ isCandidatePixelSpec img x y)

/-- Statement of claim C9: the scan returns at most one candidate per scan
line (hence at most as many candidates as lines, with distinct x when the
scan-line positions are distinct), every candidate's x is one of the given
positions, and every candidate's y lies in
`[mixture_top_y, min(scan_stop_y, image_height - BLACK_PIXELS_REQUIRED))`. -/
def C9Statement (img : Img) (mixtureTopY : ℕ) (xPositions : List ℕ) : Prop :=
  (top_down_scan img mixtureTopY xPositions).length ≤ xPositions.length ∧
  (∀ d ∈ top_down_scan img mixtureTopY xPositions,
    d.x ∈ xPositions ∧ mixtureTopY ≤ d.y ∧
      d.y < min (scanStopY img mixtureTopY) (img.h - BLACK_PIXELS_REQUIRED)) ∧
  (xPositions.Nodup → ((top_down_scan img mixtureTopY xPositions).map Dot.x).Nodup)

/-- Statement of claim C6: `detect_mixture_top` returns the row (within the
top-60% region) whose brightness drop from the previous row is the single
largest negative row-to-row difference, earliest such row first, and it is a
deterministic function of the image. -/
def C6Statement (img : Img) : Prop :=
  1 ≤ detect_mixture_top img ∧
  detect_mixture_top img < roiHeight img ∧
  (∀ j, 1 ≤ j → j < roiHeight img →
    rowBrightness img (detect_mixture_top img) -
        rowBrightness img (detect_mixture_top img - 1) ≤
      rowBrightness img j - rowBrightness img (j - 1)) ∧
  (∀ j, 1 ≤ j → j < detect_mixture_top img →
    rowBrightness img (detect_mixture_top img) -
        rowBrightness img (detect_mixture_top img - 1) <
      rowBrightness img j - rowBrightness img (j - 1)) ∧
  (∀ img2, img2 = img → detect_mixture_top img2 = detect_mixture_top img)

/-- Statement of (amended) claim C1: the trimming table of
`average_6_closest` — all points for `n ≤ 6`; for `n = 7`, sorted by y,
the single endpoint strictly farther from the median dropped (the bottom
endpoint on a tie); for `n = 8` the topmost and bottommost dropped; for
`n ≥ 9` the two topmost and two bottommost dropped — and the final
interface y is the arithmetic mean of the selected y values truncated to an
integer (the floor, as the values are non-negative). -/
def C1Statement (valid_dots : List Dot) : Prop :=
  ((average_6_closest valid_dots).1 =
      ((average_6_closest valid_dots).2.map Dot.y).sum /
        ((average_6_closest valid_dots).2.map Dot.y).length ∧
    (((average_6_closest valid_dots).1 : ℕ) : ℤ) =
      ⌊((((average_6_closest valid_dots).2.map Dot.y).sum : ℕ) : ℚ) /
          ((((average_6_closest valid_dots).2.map Dot.y).length : ℕ) : ℚ)⌋) ∧
  (valid_dots.length ≤ 6 → (average_6_closest valid_dots).2 = valid_dots) ∧
  (valid_dots.length = 7 →
    (|(((sortByY valid_dots).headD ⟨0, 0⟩).y : ℚ) -
          medianQ ((sortByY valid_dots).map Dot.y)| >
        |(((sortByY valid_dots).getLastD ⟨0, 0⟩).y : ℚ) -
          medianQ ((sortByY valid_dots).map Dot.y)| →
      (average_6_closest valid_dots).2 = (sortByY valid_dots).drop 1) ∧
    (|(((sortByY valid_dots).headD ⟨0, 0⟩).y : ℚ) -
          medianQ ((sortByY valid_dots).map Dot.y)| ≤
        |(((sortByY valid_dots).getLastD ⟨0, 0⟩).y : ℚ) -
          medianQ ((sortByY valid_dots).map Dot.y)| →
      (average_6_closest valid_dots).2 = (sortByY valid_dots).dropLast)) ∧
  (valid_dots.length = 8 →
    (average_6_closest valid_dots).2 = ((sortByY valid_dots).drop 1).dropLast) ∧
  (9 ≤ valid_dots.length →
    (average_6_closest valid_dots).2 = (((sortByY valid_dots).drop 2).dropLast).dropLast)

/-- Statement of claim C10: the truncated mean returned by
`average_6_closest` lies between the minimum and maximum y of the valid
candidates, inclusive. -/
def C10Statement (valid_dots : List Dot) : Prop :=
  minYN (valid_dots.map Dot.y) ≤ (average_6_closest valid_dots).1 ∧
  (average_6_closest valid_dots).1 ≤ maxYN (valid_dots.map Dot.y)

/-- The `stage1_valid` local of `reject_outliers`: the candidates within
`OUTLIER_THRESHOLD_EXTREME` of the median y of all candidates. -/
def stage1Valid (red_dots : List Dot) : List Dot :=
  red_dots.filter fun d =>
    |(d.y : ℚ) - medianQ (red_dots.map Dot.y)| ≤ (OUTLIER_THRESHOLD_EXTREME : ℚ)

/-- Statement of claim C2: stage 1 keeps exactly the candidates within the
extreme threshold of the median of all candidates; if it empties the set the
frame falls back to the mixture-top row with a 0% reading; otherwise stage 2
keeps exactly the stage-1 survivors within the moderate threshold of the
recomputed median.  A candidate farther than the extreme threshold from the
median is rejected at stage 1, and a set whose points pairwise lie within
10px survives both stages unchanged. -/
def C2Statement (red_dots : List Dot) : Prop :=
  (stage1Valid red_dots = [] → reject_outliers red_dots = ([], red_dots)) ∧
  (stage1Valid red_dots ≠ [] →
    (reject_outliers red_dots).1 =
      (stage1Valid red_dots).filter fun d =>
        |(d.y : ℚ) - medianQ ((stage1Valid red_dots).map Dot.y)| ≤
          (OUTLIER_THRESHOLD_MODERATE : ℚ)) ∧
  (∀ d ∈ red_dots,
    (OUTLIER_THRESHOLD_EXTREME : ℚ) < |(d.y : ℚ) - medianQ (red_dots.map Dot.y)| →
      d ∉ stage1Valid red_dots ∧ d ∉ (reject_outliers red_dots).1 ∧
        d ∈ (reject_outliers red_dots).2) ∧
  ((∀ a ∈ red_dots, ∀ b ∈ red_dots, |(a.y : ℚ) - (b.y : ℚ)| ≤ 10) →
    reject_outliers red_dots = (red_dots, [])) ∧
  (∀ (img : Img) (mixtureTopY : ℕ) (xPositions : List ℕ),
    top_down_scan img mixtureTopY xPositions = red_dots →
    stage1Valid red_dots = [] →
    detectFrame img mixtureTopY xPositions = (mixtureTopY, 0))

/-! ## Helper lemmas for the recorder model -/

/-- If the USB read loop terminates normally, the elapsed time it reports has
reached the requested duration. -/
lemma usbLoop_some_le (dur : ℤ) :
    ∀ (costs : List ℤ) (elapsed d : ℤ), usbLoop dur elapsed costs = some d → dur ≤ d := by
  intro costs
  induction costs with
  | nil =>
    intro elapsed d h
    unfold usbLoop at h
    by_cases hd : dur ≤ elapsed
    · simp [hd] at h
      omega
    · simp [hd] at h
  | cons c rest ih =>
    intro elapsed d h
    unfold usbLoop at h
    by_cases hd : dur ≤ elapsed
    · simp [hd] at h
      omega
    · simp [hd] at h
      exact ih (elapsed + c) d h

/-- A successful USB recording reports a duration at least the target. -/
lemma record_video_usb_success (dev : UsbDevice) (dur : ℤ) (d : ℤ)
    (h : record_video_usb dev dur = some (true, d)) : dur ≤ d := by
  unfold record_video_usb at h
  by_cases ho : dev.openOk
  · by_cases hw : dev.writerOk
    · rw [if_neg (by simpa using ho), if_neg (by simpa using hw)] at h
      rcases hu : usbLoop dur 0 dev.readCosts with _ | e
      · rw [hu] at h
        simp at h
      · rw [hu] at h
        by_cases hf : dev.fileOk
        · simp [hf] at h
          have he := usbLoop_some_le dur dev.readCosts 0 e hu
          omega
        · simp [hf] at h
    · rw [if_neg (by simpa using ho), if_pos (by simpa using hw)] at h
      simp at h
  · rw [if_pos (by simpa using ho)] at h
    simp at h

/-- If the RTSP retry loop returns success, the cumulative recorded duration
has reached the target. -/
lemma rtspLoop_success_ge (target max_total : ℤ) :
    ∀ (script : List RtspAttempt) (elapsed total : ℤ) (hasPath : Bool) (attempts : ℕ)
      (out : RetryOutcome),
      rtspLoop target max_total script elapsed total hasPath attempts = some out →
      out.success = true → target ≤ out.total := by
  intro script
  induction script with
  | nil =>
    intro elapsed total hasPath attempts out h hs
    unfold rtspLoop at h
    by_cases h1 : target ≤ total
    · simp [h1] at h
      subst h
      exact h1
    · by_cases h2 : max_total < elapsed
      · simp [h1, h2] at h
        subst h
        simp at hs
      · simp [h1, h2] at h
  | cons a rest ih =>
    intro elapsed total hasPath attempts out h hs
    unfold rtspLoop at h
    by_cases h1 : target ≤ total
    · simp [h1] at h
      subst h
      exact h1
    · by_cases h2 : max_total < elapsed
      · simp [h1, h2] at h
        subst h
        simp at hs
      · simp [h1, h2] at h
        by_cases ha : a.ok
        · simp [ha] at h
          by_cases h3 : target ≤ total + a.duration
          · simp [h3] at h
            subst h
            exact h3
          · simp [h3] at h
            exact ih _ _ _ _ _ h hs
        · simp [ha] at h
          exact ih _ _ _ _ _ h hs

/-- If the RTSP retry loop returns failure (and the loop was started in a
state where having no recorded file means nothing was recorded), the
cumulative duration is strictly below a positive target. -/
lemma rtspLoop_failure_lt (target max_total : ℤ) (htpos : 0 < target) :
    ∀ (script : List RtspAttempt) (elapsed total : ℤ) (hasPath : Bool) (attempts : ℕ)
      (out : RetryOutcome),
      (hasPath = false → total = 0) →
      rtspLoop target max_total script elapsed total hasPath attempts = some out →
      out.success = false → out.total < target := by
  intro script
  induction script with
  | nil =>
    intro elapsed total hasPath attempts out hinv h hs
    unfold rtspLoop at h
    by_cases h1 : target ≤ total
    · simp [h1] at h
      subst h
      simp at hs
      have := hinv hs
      omega
    · by_cases h2 : max_total < elapsed
      · simp [h1, h2] at h
        subst h
        simp
        omega
      · simp [h1, h2] at h
  | cons a rest ih =>
    intro elapsed total hasPath attempts out hinv h hs
    unfold rtspLoop at h
    by_cases h1 : target ≤ total
    · simp [h1] at h
      subst h
      simp at hs
      have := hinv hs
      omega
    · by_cases h2 : max_total < elapsed
      · simp [h1, h2] at h
        subst h
        simp
        omega
      · simp [h1, h2] at h
        by_cases ha : a.ok
        · simp [ha] at h
          by_cases h3 : target ≤ total + a.duration
          · simp [h3] at h
            subst h
            simp at hs
          · simp [h3] at h
            exact ih _ _ _ _ _ (by intro hf; cases hf) h hs
        · simp [ha] at h
          exact ih _ _ _ _ _ hinv h hs

/-! ## Claim C3 -/

/-- C3 (confirmed): for every run with image height `H`, mixture-top row `m`
and last-frame interface row `y_last`, `calculate_metrics` computes
`pixel_to_length_ratio = reference_height / H`,
`final_interface_height = (H − y_last) * ratio`,
`mixture_height = (H − m) * ratio`,
`sv30_percentage = final_interface_height / mixture_height * 100`,
`sv30_volumetric = sv30_percentage * 10`, and
`settling_rate = (mixture_height − final_interface_height) /
run_duration_minutes`; in particular `mixture_height = 200` and
`final_interface_height = 120` yield `sv30_percentage = 60` and
`sv30_volumetric = 600`. -/
theorem C3_final_metrics_formulas (image_height_px mixture_top_y t30_y : ℕ) :
    C3Statement image_height_px mixture_top_y t30_y := by
  refine ⟨rfl, rfl, rfl, rfl, rfl, ?_, ?_⟩
  · show ((t30_y : ℚ) - (mixture_top_y : ℚ)) * (BEAKER_HEIGHT_MM / (image_height_px : ℚ)) /
        TEST_DURATION_MIN =
      (((image_height_px : ℚ) - (mixture_top_y : ℚ)) *
            (BEAKER_HEIGHT_MM / (image_height_px : ℚ)) -
          ((image_height_px : ℚ) - (t30_y : ℚ)) * (BEAKER_HEIGHT_MM / (image_height_px : ℚ))) /
        TEST_DURATION_MIN
    ring
  · intro h1 h2
    constructor
    · show (calculate_metrics_core image_height_px mixture_top_y t30_y).sludge_height_t30_mm /
          (calculate_metrics_core image_height_px mixture_top_y t30_y).mixture_height_mm *
          100 = 60
      rw [h1, h2]
      norm_num
    · show (calculate_metrics_core image_height_px mixture_top_y t30_y).sludge_height_t30_mm /
          (calculate_metrics_core image_height_px mixture_top_y t30_y).mixture_height_mm *
          100 * 10 = 600
      rw [h1, h2]
      norm_num

/-- Witness for C3 at the spec's end-to-end scenario numbers
(image height 250, mixture top 50, final interface 130). -/
theorem C3_final_metrics_formulas_witness : C3Statement 250 50 130 :=
  C3_final_metrics_formulas 250 50 130

/-! ## Claim C4 -/

/-- C4 (counterexample): the claim says that when `mixture_height <= 0` the
SV30 computation signals an error and never substitutes a default such as
`0.0`.  But `sludge_detect.calculate_sv30` at `mixture_top_y = 100`,
`sludge_y = 120`, `image_height = 100` (mixture_height `= 0`) silently
returns the default `0.0`. -/
theorem C4_sv30_clamp_counterexample : calculate_sv30 100 120 100 = 0 := by
  norm_num [calculate_sv30]

/-- C4 (amended): `sludge_detect.calculate_sv30` silently clamps the result
to `0.0` whenever `mixture_height <= 0`, while the division in
`calculate_metrics` is unguarded, so a zero `mixture_height_mm` there raises
`ZeroDivisionError` (modelled as `none`) instead of producing a value. -/
theorem C4_sv30_zero_mixture (mixture_top_y sludge_y image_height : ℤ)
    (image_height_px mixture_top_px t30_y_px : ℕ) :
    (image_height - mixture_top_y ≤ 0 →
      calculate_sv30 mixture_top_y sludge_y image_height = 0) ∧
    (((image_height_px : ℚ) - (mixture_top_px : ℚ)) *
          (BEAKER_HEIGHT_MM / (image_height_px : ℚ)) = 0 →
      metrics_sv30_checked image_height_px mixture_top_px t30_y_px = none) := by
  constructor
  · intro h
    unfold calculate_sv30
    rw [if_pos h]
  · intro h
    unfold metrics_sv30_checked
    rw [if_pos h]

/-- Witness for C4's amended theorem: a degenerate geometry
(`mixture_top_y = 130` at image height `120`) is clamped to `0.0`. -/
theorem C4_sv30_zero_mixture_witness : calculate_sv30 130 140 120 = 0 :=
  (C4_sv30_zero_mixture 130 140 120 1 1 1).1 (by decide)

/-! ## Claim C7 -/

/-- C7 (counterexample): the claim says every recording run whose attempt
yields less than the target duration requests additional recording segments
for the shortfall.  Under the configured `CAM1_TYPE = "USB"`, a device whose
camera fails to open yields `0 < 2100` seconds, yet the run ends after
exactly `1` attempt with a failure — no additional segment is requested. -/
theorem C7_usb_no_retry_counterexample :
    record_with_retry CamType.usb ⟨false, true, [], true⟩ [] 2100 300 =
        some ⟨false, 0, 1⟩ ∧
      (0 : ℤ) < 2100 :=
  ⟨by decide, by decide⟩

/-- C7 (amended): USB runs record in a single session without retry and
report failure on a failed attempt; RTSP runs retry for the remaining
shortfall within the budget `target + buffer`.  In both modes a run that
reports success has recorded at least the target duration, and an RTSP run
that reports failure (positive target) has a cumulative duration strictly
below the target. -/
theorem C7_retry_budget (cam : CamType) (dev : UsbDevice) (script : List RtspAttempt)
    (target buffer : ℤ) (out : RetryOutcome) :
    (record_with_retry cam dev script target buffer = some out →
      out.success = true → target ≤ out.total) ∧
    (0 < target → cam = CamType.rtsp →
      record_with_retry cam dev script target buffer = some out →
      out.success = false → out.total < target) := by
  constructor
  · intro h hs
    cases cam with
    | usb =>
      unfold record_with_retry at h
      rcases hm : record_video_usb dev target with _ | r
      · rw [hm] at h
        simp at h
      · rw [hm] at h
        rcases r with ⟨b, d⟩
        rw [Option.map_some'] at h
        injection h with h
        subst h
        simp at hs
        subst hs
        exact record_video_usb_success dev target d hm
    | rtsp =>
      exact rtspLoop_success_ge target (target + buffer) script 0 0 false 0 out h hs
  · intro ht hcam h hs
    subst hcam
    unfold record_with_retry at h
    exact rtspLoop_failure_lt target (target + buffer) ht script 0 0 false 0 out
      (fun _ => rfl) h hs

/-- Witness for C7: the spec's scenario — a device yielding 80% of the
2100-second target on the first attempt and the remaining 20% on the
requested second attempt — succeeds with cumulative duration 2100 within
budget, after exactly 2 attempts. -/
theorem C7_retry_budget_witness :
    record_with_retry CamType.rtsp ⟨true, true, [], true⟩
        [⟨true, 1680, 1680⟩, ⟨true, 420, 420⟩] 2100 300 =
      some ⟨true, 2100, 2⟩ ∧
    (2100 : ℤ) ≤ (⟨true, 2100, 2⟩ : RetryOutcome).total :=
  ⟨by decide,
    (C7_retry_budget CamType.rtsp ⟨true, true, [], true⟩
        [⟨true, 1680, 1680⟩, ⟨true, 420, 420⟩] 2100 300 ⟨true, 2100, 2⟩).1
      (by decide) rfl⟩

/-! ## Claim C8 -/

/-- C8 (counterexample): the claim says the mask's designated reference
frame is never the first frame of the run, for every non-empty frame
sequence.  For a single-frame run `mask_beaker.process_all` uses
`mask_frame_idx = 0` — the first frame. -/
theorem C8_first_frame_counterexample :
    mask_process_all (fun f : ℕ => f * 2) (fun f m => f + m) [7] =
      some ⟨[7], 0, [21]⟩ :=
  rfl

/-- C8 (amended): for every non-empty frame sequence the segmentation
capability is invoked exactly once (the `segCalls` trace is one frame); the
reference frame is the frame at index `1` (the second frame) whenever the
run has at least two frames and the first frame only for single-frame runs;
and the one resulting mask is applied unchanged to every frame. -/
theorem C8_mask_derived_once {F M : Type} (seg : F → M) (applyM : F → M → F)
    (frames : List F) (hne : frames ≠ []) :
    ∃ rf, mask_process_all seg applyM frames =
        some ⟨[rf], if frames.length < 2 then 0 else 1,
          frames.map fun fr => applyM fr (seg rf)⟩ ∧
      frames[(if frames.length < 2 then 0 else 1)]? = some rf := by
  match frames with
  | [] => exact absurd rfl hne
  | [f] =>
    refine ⟨f, ?_, ?_⟩
    · simp [mask_process_all]
    · simp
  | f :: g :: rest =>
    have hc : ¬ ((f :: g :: rest).length < 2) := by
      simp
    refine ⟨g, ?_, ?_⟩
    · unfold mask_process_all
      rw [if_neg hc]
      rfl
    · rw [if_neg hc]
      simp

/-- Witness for C8 on a concrete three-frame run. -/
theorem C8_mask_derived_once_witness :
    ∃ rf, mask_process_all (fun f : ℕ => f * 2) (fun f m => f + m) [10, 20, 30] =
        some ⟨[rf], if ([10, 20, 30] : List ℕ).length < 2 then 0 else 1,
          ([10, 20, 30] : List ℕ).map fun fr => fr + rf * 2⟩ ∧
      ([10, 20, 30] : List ℕ)[(if ([10, 20, 30] : List ℕ).length < 2 then 0 else 1)]? =
        some rf :=
  C8_mask_derived_once (fun f : ℕ => f * 2) (fun f m => f + m) [10, 20, 30] (by decide)

/-! ## Helper lemmas for the scan model -/

/-- `List.find?` over `range' a n` finds exactly the least element of
`[a, a+n)` satisfying the predicate. -/
lemma find?_range'_eq_some (p : ℕ → Bool) :
    ∀ (n a y : ℕ), (List.range' a n).find? p = some y ↔
      (a ≤ y ∧ y < a + n ∧ p y = true ∧ ∀ z, a ≤ z → z < y → p z = false) := by
  intro n
  induction n with
  | zero =>
    intro a y
    constructor
    · intro h
      simp at h
    · rintro ⟨h1, h2, -, -⟩
      omega
  | succ n ih =>
    intro a y
    rw [List.range'_succ]
    cases hpa : p a
    · simp only [List.find?_cons, hpa]
      rw [ih (a + 1) y]
      constructor
      · rintro ⟨h1, h2, h3, h4⟩
        refine ⟨by omega, by omega, h3, ?_⟩
        intro z hz1 hz2
        rcases Nat.eq_or_lt_of_le hz1 with he | hl
        · rw [he] at hpa
          exact hpa
        · exact h4 z (by omega) hz2
      · rintro ⟨h1, h2, h3, h4⟩
        have hya : y ≠ a := by
          intro he
          rw [he, hpa] at h3
          cases h3
        exact ⟨by omega, by omega, h3, fun z hz1 hz2 => h4 z (by omega) hz2⟩
    · simp only [List.find?_cons, hpa]
      constructor
      · intro h
        injection h with h
        subst h
        exact ⟨Nat.le_refl a, by omega, hpa, fun z hz1 hz2 => absurd hz2 (by omega)⟩
      · rintro ⟨h1, h2, h3, h4⟩
        have hya : y = a := by
          by_contra hne
          have hlt : a < y := by omega
          have hf := h4 a (Nat.le_refl a) hlt
          rw [hpa] at hf
          cases hf
        rw [hya]
  

/-- The Boolean loop test equals the bright-with-dark-run condition (without
the in-image requirement, which the loop bound supplies). -/
lemma isInterfacePixel_eq_true_iff (img : Img) (x y : ℕ) :
    isInterfacePixel img x y = true ↔
      (img.pix y x = 255 ∧
        ∀ o, 1 ≤ o → o ≤ BLACK_PIXELS_REQUIRED → img.pix (y + o) x = 0) := by
  unfold isInterfacePixel hasBlackRunBelow
  rw [Bool.and_eq_true, List.all_eq_true]
  constructor
  · rintro ⟨hw, hb⟩
    refine ⟨by simpa using hw, ?_⟩
    intro o ho1 ho2
    have := hb o (List.mem_range'_1.mpr ⟨ho1, by omega⟩)
    simpa using this
  · rintro ⟨hw, hb⟩
    refine ⟨by simpa using hw, ?_⟩
    intro o ho
    rcases List.mem_range'_1.mp ho with ⟨ho1, ho2⟩
    simpa using hb o ho1 (by omega)

/-- Membership form of the scan loop's upper bound. -/
lemma scanLine_some_bounds (img : Img) (mixtureTopY x y : ℕ)
    (h : scanLine img mixtureTopY x = some y) :
    mixtureTopY ≤ y ∧
      y < min (scanStopY img mixtureTopY) (img.h - BLACK_PIXELS_REQUIRED) := by
  unfold scanLine at h
  rw [find?_range'_eq_some] at h
  rcases h with ⟨h1, h2, -, -⟩
  exact ⟨h1, by omega⟩

/-! ## Claim C5 -/

/-- C5 (confirmed): for every binary frame, mixture-top row and scan-line x
position, the scan records the first (topmost) pixel in the window from the
mixture top to 50% of the mixture depth that is bright (255) and immediately
followed by `BLACK_PIXELS_REQUIRED = 5` consecutive dark (0) pixels directly
below it inside the image, and records nothing exactly when no such pixel
exists in the window. -/
theorem C5_per_frame_scan_rule (img : Img) (mixtureTopY x : ℕ) :
    C5Statement img mixtureTopY x := by
  constructor
  · intro y
    unfold scanLine
    rw [find?_range'_eq_some]
    constructor
    · rintro ⟨h1, h2, h3, h4⟩
      have hyub : y < min (scanStopY img mixtureTopY) (img.h - BLACK_PIXELS_REQUIRED) := by
        omega
      have hy1 : y < scanStopY img mixtureTopY := lt_of_lt_of_le hyub (min_le_left _ _)
      have hy2 : y < img.h - BLACK_PIXELS_REQUIRED := lt_of_lt_of_le hyub (min_le_right _ _)
      rcases (isInterfacePixel_eq_true_iff img x y).mp h3 with ⟨hw, hb⟩
      refine ⟨h1, hy1, ⟨hw, hb, by omega⟩, ?_⟩
      intro z hz1 hz2 hcand
      have hz : isInterfacePixel img x z = true :=
        (isInterfacePixel_eq_true_iff img x z).mpr ⟨hcand.1, hcand.2.1⟩
      rw [h4 z hz1 hz2] at hz
      cases hz
    · rintro ⟨h1, h2, ⟨hw, hb, hin⟩, h4⟩
      have hy2 : y < img.h - BLACK_PIXELS_REQUIRED := by
        omega
      refine ⟨h1, by omega, (isInterfacePixel_eq_true_iff img x y).mpr ⟨hw, hb⟩, ?_⟩
      intro z hz1 hz2
      cases hz : isInterfacePixel img x z with
      | false => rfl
      | true =>
        rcases (isInterfacePixel_eq_true_iff img x z).mp hz with ⟨hzw, hzb⟩
        exact absurd ⟨hzw, hzb, by omega⟩ (h4 z hz1 hz2)
  · unfold scanLine
    rw [List.find?_eq_none]
    constructor
    · intro h y hy1 hy2 hcand
      have hy3 : y < img.h - BLACK_PIXELS_REQUIRED := by
        have := hcand.2.2
        omega
      have hmem : y ∈ List.range' mixtureTopY
          (min (scanStopY img mixtureTopY) (img.h - BLACK_PIXELS_REQUIRED) - mixtureTopY) := by
        rw [List.mem_range'_1]
        omega
      exact h y hmem ((isInterfacePixel_eq_true_iff img x y).mpr ⟨hcand.1, hcand.2.1⟩)
    · intro h z hz hiz
      rw [List.mem_range'_1] at hz
      rcases (isInterfacePixel_eq_true_iff img x z).mp hiz with ⟨hw, hb⟩
      exact h z hz.1 (by omega) ⟨hw, hb, by omega⟩

/-- Witness for C5 on a concrete 12×1 image: the interface at row 3 is found
(row 2 is bright but lacks the dark run). -/
theorem C5_per_frame_scan_rule_witness :
    scanLine ⟨12, 1, fun r _ => if r ≤ 1 then 0 else if r ≤ 3 then 255 else 0⟩ 0 0 =
      some 3 :=
  ((C5_per_frame_scan_rule ⟨12, 1, fun r _ => if r ≤ 1 then 0 else if r ≤ 3 then 255 else 0⟩
      0 0).1 3).mpr
    ⟨Nat.zero_le 3, by decide,
      ⟨rfl,
        fun o h1 h2 => by
          show (if 3 + o ≤ 1 then 0 else if 3 + o ≤ 3 then 255 else 0) = 0
          rw [if_neg (by omega), if_neg (by omega)],
        by decide⟩,
      fun z hz0 hz3 hc => by
        interval_cases z
        · exact absurd hc.1 (by decide)
        · exact absurd hc.1 (by decide)
        · exact absurd (hc.2.1 1 (by decide) (by decide)) (by decide)⟩

/-- Every scanned dot's x position is one of the scan-line positions. -/
lemma top_down_scan_x_mem (img : Img) (mixtureTopY : ℕ) (xs : List ℕ) (d : Dot)
    (hd : d ∈ top_down_scan img mixtureTopY xs) : d.x ∈ xs := by
  unfold top_down_scan at hd
  rw [List.mem_filterMap] at hd
  rcases hd with ⟨x', hx', hmap⟩
  rcases Option.map_eq_some'.mp hmap with ⟨y, _, hdy⟩
  rw [← hdy]
  exact hx'

/-- Distinct scan-line positions yield dots with distinct x positions. -/
lemma top_down_scan_nodup (img : Img) (mixtureTopY : ℕ) :
    ∀ xs : List ℕ, xs.Nodup →
      ((top_down_scan img mixtureTopY xs).map Dot.x).Nodup := by
  intro xs
  induction xs with
  | nil =>
    intro _
    simp [top_down_scan]
  | cons x rest ih =>
    intro hnd
    rw [List.nodup_cons] at hnd
    unfold top_down_scan
    rw [List.filterMap_cons]
    cases hsl : scanLine img mixtureTopY x with
    | none =>
      simp only [hsl, Option.map_none']
      exact ih hnd.2
    | some y =>
      simp only [hsl, Option.map_some']
      rw [List.map_cons, List.nodup_cons]
      constructor
      · intro hmem
        rw [List.mem_map] at hmem
        rcases hmem with ⟨d, hd, hdx⟩
        have hx : d.x ∈ rest := top_down_scan_x_mem img mixtureTopY rest d hd
        rw [hdx] at hx
        exact hnd.1 hx
      · exact ih hnd.2

/-! ## Claim C9 -/

/-- C9 (confirmed): the per-frame scan returns at most one candidate per
scan line — at most as many candidates as scan lines, with pairwise
distinct x when the positions are distinct — every candidate's x is one of
the given positions, and every candidate's y lies in the window
`[mixture_top_y, min(scan_stop_y, image_height - BLACK_PIXELS_REQUIRED))`. -/
theorem C9_scan_output_invariant (img : Img) (mixtureTopY : ℕ) (xPositions : List ℕ) :
    C9Statement img mixtureTopY xPositions := by
  refine ⟨List.length_filterMap_le _ _, ?_, top_down_scan_nodup img mixtureTopY xPositions⟩
  intro d hd
  unfold top_down_scan at hd
  rw [List.mem_filterMap] at hd
  rcases hd with ⟨x', hx', hmap⟩
  rcases Option.map_eq_some'.mp hmap with ⟨y, hsl, hdy⟩
  rcases scanLine_some_bounds img mixtureTopY x' y hsl with ⟨hy1, hy2⟩
  rw [← hdy]
  exact ⟨hx', hy1, hy2⟩

/-- Witness for C9 on a concrete image and scan-line list. -/
theorem C9_scan_output_invariant_witness :
    C9Statement ⟨12, 1, fun r _ => if r ≤ 1 then 0 else if r ≤ 3 then 255 else 0⟩ 0 [0] :=
  C9_scan_output_invariant ⟨12, 1, fun r _ => if r ≤ 1 then 0 else if r ≤ 3 then 255 else 0⟩
    0 [0]

/-! ## Helper lemmas for the argmin model -/

/-- `listMin` bounds every member of the list from below. -/
lemma listMin_le (l : List ℚ) : ∀ x ∈ l, listMin l ≤ x := by
  induction l with
  | nil =>
    intro x hx
    cases hx
  | cons a t ih =>
    intro x hx
    cases t with
    | nil =>
      rcases List.mem_cons.mp hx with h | h
      · subst h
        simp [listMin]
      · cases h
    | cons b t2 =>
      rw [show listMin (a :: b :: t2) = min a (listMin (b :: t2)) from by simp [listMin]]
      rcases List.mem_cons.mp hx with h | h
      · subst h
        exact min_le_left _ _
      · exact le_trans (min_le_right _ _) (ih x h)

/-- An in-bounds `getD` is a member of the list. -/
lemma getD_mem_of_lt {l : List ℚ} {i : ℕ} (hi : i < l.length) : l.getD i 0 ∈ l := by
  rw [List.getD_eq_getElem?_getD, List.getElem?_eq_getElem hi]
  simp only [Option.getD_some]
  exact List.getElem_mem hi

/-- `argminFirst` lands inside the list, attains the minimum value, and every
earlier entry is strictly above the minimum (first occurrence). -/
lemma argminFirst_spec (l : List ℚ) (hne : l ≠ []) :
    argminFirst l < l.length ∧
    l.getD (argminFirst l) 0 = listMin l ∧
    ∀ j, j < argminFirst l → listMin l < l.getD j 0 := by
  induction l with
  | nil => exact absurd rfl hne
  | cons a t ih =>
    cases t with
    | nil =>
      refine ⟨by simp [argminFirst], by simp [argminFirst, listMin], ?_⟩
      intro j hj
      simp [argminFirst] at hj
    | cons b t2 =>
      have hmin : listMin (a :: b :: t2) = min a (listMin (b :: t2)) := by
        simp [listMin]
      by_cases hle : a ≤ listMin (b :: t2)
      · have harg : argminFirst (a :: b :: t2) = 0 := by
          simp [argminFirst, hle]
        refine ⟨by rw [harg]; simp, ?_, ?_⟩
        · rw [harg, hmin, List.getD_cons_zero, min_eq_left hle]
        · intro j hj
          rw [harg] at hj
          omega
      · have harg : argminFirst (a :: b :: t2) = argminFirst (b :: t2) + 1 := by
          simp [argminFirst, hle]
        have hlt : listMin (b :: t2) < a := not_le.mp hle
        rcases ih (by simp) with ⟨ih1, ih2, ih3⟩
        have hminr : listMin (a :: b :: t2) = listMin (b :: t2) := by
          rw [hmin, min_eq_right (le_of_lt hlt)]
        refine ⟨?_, ?_, ?_⟩
        · rw [harg]
          simp only [List.length_cons]
          simp only [List.length_cons] at ih1
          omega
        · rw [harg, hminr, List.getD_cons_succ]
          exact ih2
        · intro j hj
          rw [harg] at hj
          cases j with
          | zero =>
            rw [List.getD_cons_zero, hminr]
            exact hlt
          | succ j2 =>
            rw [List.getD_cons_succ, hminr]
            exact ih3 j2 (by omega)

/-- Length of the brightness-difference list. -/
lemma brightnessGradient_length (img : Img) :
    (brightnessGradient img).length = roiHeight img - 1 := by
  unfold brightnessGradient
  simp

/-- Entry `i` of the brightness-difference list. -/
lemma brightnessGradient_getD (img : Img) (i : ℕ) (hi : i < roiHeight img - 1) :
    (brightnessGradient img).getD i 0 =
      rowBrightness img (i + 1) - rowBrightness img i := by
  unfold brightnessGradient
  rw [List.getD_eq_getElem?_getD, List.getElem?_map, List.getElem?_range hi]
  rfl

/-! ## Claim C6 -/

/-- C6 (confirmed): for every reference frame whose top-60% region has at
least two rows, `detect_mixture_top` returns the row index (at least 1,
inside the region) at which the row-to-row average-brightness difference is
the single largest negative one — the first such row when several tie — and
the function is deterministic in the input image. -/
theorem C6_mixture_top_detection (img : Img) (h2 : 2 ≤ roiHeight img) : C6Statement img := by
  have hg_len : (brightnessGradient img).length = roiHeight img - 1 :=
    brightnessGradient_length img
  have hne : brightnessGradient img ≠ [] := by
    intro h
    rw [h] at hg_len
    simp at hg_len
    omega
  rcases argminFirst_spec (brightnessGradient img) hne with ⟨ha1, ha2, ha3⟩
  have hdet : detect_mixture_top img = argminFirst (brightnessGradient img) + 1 := rfl
  have hklt : argminFirst (brightnessGradient img) < roiHeight img - 1 := by
    rw [hg_len] at ha1
    exact ha1
  have e1 : (brightnessGradient img).getD (argminFirst (brightnessGradient img)) 0 =
      rowBrightness img (argminFirst (brightnessGradient img) + 1) -
        rowBrightness img (argminFirst (brightnessGradient img)) :=
    brightnessGradient_getD img _ hklt
  refine ⟨by omega, by omega, ?_, ?_, ?_⟩
  · intro j hj1 hj2
    have hjm : j - 1 < roiHeight img - 1 := by
      omega
    have e2 : (brightnessGradient img).getD (j - 1) 0 =
        rowBrightness img (j - 1 + 1) - rowBrightness img (j - 1) :=
      brightnessGradient_getD img (j - 1) hjm
    rw [show j - 1 + 1 = j from by omega] at e2
    rw [hdet, Nat.add_sub_cancel, ← e1, ← e2, ha2]
    exact listMin_le _ _ (getD_mem_of_lt (by rw [hg_len]; omega))
  · intro j hj1 hj2
    rw [hdet] at hj2
    have hjm : j - 1 < roiHeight img - 1 := by
      omega
    have e2 : (brightnessGradient img).getD (j - 1) 0 =
        rowBrightness img (j - 1 + 1) - rowBrightness img (j - 1) :=
      brightnessGradient_getD img (j - 1) hjm
    rw [show j - 1 + 1 = j from by omega] at e2
    rw [hdet, Nat.add_sub_cancel, ← e1, ← e2, ha2]
    exact ha3 (j - 1) (by omega)
  · intro img2 he
    rw [he]

/-- Witness for C6 on a concrete 5-row image (top-60% region has 3 rows). -/
theorem C6_mixture_top_detection_witness :
    2 ≤ roiHeight ⟨5, 1, fun r _ => if r = 0 then 255 else 0⟩ ∧
      C6Statement ⟨5, 1, fun r _ => if r = 0 then 255 else 0⟩ :=
  ⟨by decide,
    C6_mixture_top_detection ⟨5, 1, fun r _ => if r = 0 then 255 else 0⟩ (by decide)⟩

/-! ## Helper lemmas for trimmed averaging -/

/-- Unfolded selection table of `average_6_closest`. -/
lemma average_6_closest_snd (valid_dots : List Dot) :
    (average_6_closest valid_dots).2 =
      if valid_dots.length < 6 then valid_dots
      else if valid_dots.length = 6 then valid_dots
      else if valid_dots.length = 7 then
        if |(((sortByY valid_dots).getLastD ⟨0, 0⟩).y : ℚ) -
              medianQ ((sortByY valid_dots).map Dot.y)| <
            |(((sortByY valid_dots).headD ⟨0, 0⟩).y : ℚ) -
              medianQ ((sortByY valid_dots).map Dot.y)|
        then (sortByY valid_dots).drop 1
        else (sortByY valid_dots).dropLast
      else if valid_dots.length = 8 then ((sortByY valid_dots).drop 1).dropLast
      else (((sortByY valid_dots).drop 2).dropLast).dropLast :=
  rfl

/-- The returned interface y is the natural division of the selected sum. -/
lemma average_6_closest_fst (valid_dots : List Dot) :
    (average_6_closest valid_dots).1 =
      ((average_6_closest valid_dots).2.map Dot.y).sum /
        ((average_6_closest valid_dots).2.map Dot.y).length :=
  rfl

/-- Natural division is the floor of the exact rational quotient. -/
lemma natDiv_eq_floor (a b : ℕ) : ((a / b : ℕ) : ℤ) = ⌊(a : ℚ) / (b : ℚ)⌋ := by
  rcases Nat.eq_zero_or_pos b with hb | hb
  · subst hb
    simp
  · rw [eq_comm, Int.floor_eq_iff]
    constructor
    · push_cast
      rw [le_div_iff₀ (by positivity)]
      exact_mod_cast Nat.div_mul_le_self a b
    · push_cast
      rw [div_lt_iff₀ (by positivity)]
      have h1 := Nat.div_add_mod a b
      have h2 := Nat.mod_lt a hb
      have h3 : a < (a / b + 1) * b := by nlinarith
      exact_mod_cast h3

/-! ## Claim C1 -/

/-- C1 (counterexample): the claim says the frame's final interface_y equals
the arithmetic mean of the selected y values; for the valid set
`[{x:0,y:10},{x:1,y:11}]` (n = 2, all selected) the mean is 10.5 but
`int(np.mean(...))` yields 10. -/
theorem C1_mean_truncation_counterexample :
    (((average_6_closest [⟨0, 10⟩, ⟨1, 11⟩]).1 : ℕ) : ℚ) ≠
      ((((average_6_closest [⟨0, 10⟩, ⟨1, 11⟩]).2.map Dot.y).sum : ℕ) : ℚ) /
        ((((average_6_closest [⟨0, 10⟩, ⟨1, 11⟩]).2.map Dot.y).length : ℕ) : ℚ) := by
  have h : average_6_closest [⟨0, 10⟩, ⟨1, 11⟩] = (10, [⟨0, 10⟩, ⟨1, 11⟩]) := by
    decide
  rw [h]
  simp only [List.map_cons, List.map_nil, List.sum_cons, List.sum_nil, List.length_cons,
    List.length_nil]
  norm_num

/-- C1 (amended): the selection table is exactly as claimed — `n ≤ 6` keeps
all points, `n = 7` drops the single endpoint strictly farther from the
median (bottom endpoint on a tie), `n = 8` drops the topmost and
bottommost, `n ≥ 9` drops the two topmost and two bottommost — and the
frame's final interface_y is the arithmetic mean of the selected y values
truncated to an integer. -/
theorem C1_trimmed_averaging (valid_dots : List Dot) : C1Statement valid_dots := by
  refine ⟨⟨rfl, natDiv_eq_floor _ _⟩, ?_, ?_, ?_, ?_⟩
  · intro h6
    rw [average_6_closest_snd]
    rcases Nat.lt_or_ge valid_dots.length 6 with h | h
    · rw [if_pos h]
    · have h6' : valid_dots.length = 6 := by omega
      rw [if_neg (by omega), if_pos h6']
  · intro h7
    constructor
    · intro hgt
      rw [average_6_closest_snd, if_neg (by omega), if_neg (by omega), if_pos h7,
        if_pos hgt]
    · intro hle
      rw [average_6_closest_snd, if_neg (by omega), if_neg (by omega), if_pos h7,
        if_neg (not_lt.mpr hle)]
  · intro h8
    rw [average_6_closest_snd, if_neg (by omega), if_neg (by omega), if_neg (by omega),
      if_pos h8]
  · intro h9
    rw [average_6_closest_snd, if_neg (by omega), if_neg (by omega), if_neg (by omega),
      if_neg (by omega)]

/-- Witness for C1 at the spec's example: n = 8 with
y = [10,12,14,16,18,20,22,100] drops 10 and 100 and averages the remaining
six to 17. -/
theorem C1_trimmed_averaging_witness :
    C1Statement [⟨0, 10⟩, ⟨1, 12⟩, ⟨2, 14⟩, ⟨3, 16⟩, ⟨4, 18⟩, ⟨5, 20⟩, ⟨6, 22⟩, ⟨7, 100⟩] ∧
    average_6_closest [⟨0, 10⟩, ⟨1, 12⟩, ⟨2, 14⟩, ⟨3, 16⟩, ⟨4, 18⟩, ⟨5, 20⟩, ⟨6, 22⟩,
        ⟨7, 100⟩] =
      (17, [⟨1, 12⟩, ⟨2, 14⟩, ⟨3, 16⟩, ⟨4, 18⟩, ⟨5, 20⟩, ⟨6, 22⟩]) :=
  ⟨C1_trimmed_averaging _, by decide⟩

/-- `minYN` bounds every member of the list from below. -/
lemma minYN_le (l : List ℕ) : ∀ x ∈ l, minYN l ≤ x := by
  induction l with
  | nil =>
    intro x hx
    cases hx
  | cons a t ih =>
    intro x hx
    cases t with
    | nil =>
      rcases List.mem_cons.mp hx with h | h
      · subst h
        simp [minYN]
      · cases h
    | cons b t2 =>
      rw [show minYN (a :: b :: t2) = min a (minYN (b :: t2)) from by simp [minYN]]
      rcases List.mem_cons.mp hx with h | h
      · subst h
        exact min_le_left _ _
      · exact le_trans (min_le_right _ _) (ih x h)

/-- `maxYN` bounds every member of the list from above. -/
lemma le_maxYN (l : List ℕ) : ∀ x ∈ l, x ≤ maxYN l := by
  induction l with
  | nil =>
    intro x hx
    cases hx
  | cons a t ih =>
    intro x hx
    cases t with
    | nil =>
      rcases List.mem_cons.mp hx with h | h
      · subst h
        simp [maxYN]
      · cases h
    | cons b t2 =>
      rw [show maxYN (a :: b :: t2) = max a (maxYN (b :: t2)) from by simp [maxYN]]
      rcases List.mem_cons.mp hx with h | h
      · subst h
        exact le_max_left _ _
      · exact le_trans (ih x h) (le_max_right _ _)

/-- The selected dots are among the valid dots. -/
lemma average_6_closest_subset (valid_dots : List Dot) :
    ∀ d ∈ (average_6_closest valid_dots).2, d ∈ valid_dots := by
  intro d hd
  rw [average_6_closest_snd] at hd
  have hperm : (sortByY valid_dots).Perm valid_dots :=
    List.perm_insertionSort _ _
  split_ifs at hd
  · exact hd
  · exact hd
  · exact hperm.mem_iff.mp (List.Sublist.mem hd (List.drop_sublist 1 _))
  · exact hperm.mem_iff.mp (List.Sublist.mem hd (List.dropLast_sublist _))
  · exact hperm.mem_iff.mp
      (List.Sublist.mem hd ((List.dropLast_sublist _).trans (List.drop_sublist 1 _)))
  · exact hperm.mem_iff.mp
      (List.Sublist.mem hd (((List.dropLast_sublist _).trans
        (List.dropLast_sublist _)).trans (List.drop_sublist 2 _)))

/-- The selected-dot list is non-empty whenever the valid set is. -/
lemma average_6_closest_ne_nil (valid_dots : List Dot) (hne : valid_dots ≠ []) :
    (average_6_closest valid_dots).2 ≠ [] := by
  rw [average_6_closest_snd]
  have hlen : (sortByY valid_dots).length = valid_dots.length :=
    List.length_insertionSort _ _
  have hpos : 0 < valid_dots.length := List.length_pos.mpr hne
  split_ifs with h1 h2 h3 h4 h5
  · exact hne
  · exact hne
  · rw [← List.length_pos, List.length_drop, hlen]
    omega
  · rw [← List.length_pos, List.length_dropLast, hlen]
    omega
  · rw [← List.length_pos, List.length_dropLast, List.length_drop, hlen]
    omega
  · rw [← List.length_pos, List.length_dropLast, List.length_dropLast, List.length_drop,
      hlen]
    omega

/-- Lower bound on a sum over a list. -/
lemma mul_length_le_sum (lo : ℕ) :
    ∀ l : List ℕ, (∀ x ∈ l, lo ≤ x) → lo * l.length ≤ l.sum := by
  intro l
  induction l with
  | nil =>
    intro _
    simp
  | cons a t ih =>
    intro hb
    rw [List.length_cons, List.sum_cons, Nat.mul_succ]
    have h1 := hb a (List.mem_cons_self a t)
    have h2 := ih fun x hx => hb x (List.mem_cons_of_mem a hx)
    omega

/-- Upper bound on a sum over a list. -/
lemma sum_le_mul_length (hi : ℕ) :
    ∀ l : List ℕ, (∀ x ∈ l, x ≤ hi) → l.sum ≤ hi * l.length := by
  intro l
  induction l with
  | nil =>
    intro _
    simp
  | cons a t ih =>
    intro hb
    rw [List.length_cons, List.sum_cons, Nat.mul_succ]
    have h1 := hb a (List.mem_cons_self a t)
    have h2 := ih fun x hx => hb x (List.mem_cons_of_mem a hx)
    omega

/-- The truncated mean of a non-empty list lies between any uniform bounds. -/
lemma sum_div_length_bounds (l : List ℕ) (hne : l ≠ []) (lo hi : ℕ)
    (hb : ∀ x ∈ l, lo ≤ x ∧ x ≤ hi) :
    lo ≤ l.sum / l.length ∧ l.sum / l.length ≤ hi := by
  have hlen : 0 < l.length := List.length_pos.mpr hne
  constructor
  · rw [Nat.le_div_iff_mul_le hlen]
    exact mul_length_le_sum lo l fun x hx => (hb x hx).1
  · calc l.sum / l.length ≤ hi * l.length / l.length :=
          Nat.div_le_div_right (sum_le_mul_length hi l fun x hx => (hb x hx).2)
    _ = hi := Nat.mul_div_cancel hi hlen

/-! ## Claim C10 -/

/-- C10 (confirmed): for every non-empty valid candidate set, the trimmed
average is an integer (the mean truncated by natural division) lying
between the minimum and maximum y of the valid candidates, inclusive. -/
theorem C10_average_bounded (valid_dots : List Dot) (hne : valid_dots ≠ []) :
    C10Statement valid_dots := by
  have hsub := average_6_closest_subset valid_dots
  have hne2 := average_6_closest_ne_nil valid_dots hne
  have hne3 : (average_6_closest valid_dots).2.map Dot.y ≠ [] := by
    intro hc
    exact hne2 (List.map_eq_nil_iff.mp hc)
  have hbounds : ∀ y' ∈ (average_6_closest valid_dots).2.map Dot.y,
      minYN (valid_dots.map Dot.y) ≤ y' ∧ y' ≤ maxYN (valid_dots.map Dot.y) := by
    intro y' hy'
    rcases List.mem_map.mp hy' with ⟨d, hd, hdy⟩
    have hmem : d.y ∈ valid_dots.map Dot.y := List.mem_map.mpr ⟨d, hsub d hd, rfl⟩
    rw [← hdy]
    exact ⟨minYN_le _ _ hmem, le_maxYN _ _ hmem⟩
  rcases sum_div_length_bounds ((average_6_closest valid_dots).2.map Dot.y) hne3 _ _
    hbounds with ⟨h1, h2⟩
  rw [C10Statement, average_6_closest_fst]
  exact ⟨h1, h2⟩

/-- Witness for C10 on a concrete valid set. -/
theorem C10_average_bounded_witness :
    ([⟨0, 10⟩, ⟨1, 11⟩] : List Dot) ≠ [] ∧ C10Statement [⟨0, 10⟩, ⟨1, 11⟩] :=
  ⟨by decide, C10_average_bounded [⟨0, 10⟩, ⟨1, 11⟩] (by decide)⟩

/-! ## Helper lemmas for outlier rejection -/

/-- Generic in-bounds `getD` membership (ℕ version). -/
lemma getD_mem_of_lt_nat {l : List ℕ} {i : ℕ} {d : ℕ} (hi : i < l.length) :
    l.getD i d ∈ l := by
  rw [List.getD_eq_getElem?_getD, List.getElem?_eq_getElem hi]
  simp only [Option.getD_some]
  exact List.getElem_mem hi

/-- `reject_outliers` on a non-empty list, unfolded. -/
lemma reject_outliers_eq (red_dots : List Dot) (hne : red_dots ≠ []) :
    reject_outliers red_dots =
      if stage1Valid red_dots = [] then ([], red_dots)
      else
        ((stage1Valid red_dots).filter fun d =>
            |(d.y : ℚ) - medianQ ((stage1Valid red_dots).map Dot.y)| ≤
              (OUTLIER_THRESHOLD_MODERATE : ℚ),
          (red_dots.filter fun d =>
            ¬ |(d.y : ℚ) - medianQ (red_dots.map Dot.y)| ≤
              (OUTLIER_THRESHOLD_EXTREME : ℚ)) ++
          (stage1Valid red_dots).filter fun d =>
            ¬ |(d.y : ℚ) - medianQ ((stage1Valid red_dots).map Dot.y)| ≤
              (OUTLIER_THRESHOLD_MODERATE : ℚ)) := by
  unfold reject_outliers stage1Valid
  rw [if_neg hne]

/-- `np.median` of a non-empty integer list is the average of two (possibly
equal) members of the list. -/
lemma medianQ_between (l : List ℕ) (hne : l ≠ []) :
    ∃ a ∈ l, ∃ b ∈ l, medianQ l = ((a : ℚ) + (b : ℚ)) / 2 := by
  have hlen : (List.insertionSort (· ≤ ·) l).length = l.length :=
    List.length_insertionSort _ _
  have hpos : 0 < l.length := List.length_pos.mpr hne
  have hperm := List.perm_insertionSort (· ≤ ·) l
  unfold medianQ
  by_cases hodd : l.length % 2 = 1
  · rw [if_pos hodd]
    have hidx : l.length / 2 < (List.insertionSort (· ≤ ·) l).length := by
      rw [hlen]
      omega
    have hmem : (List.insertionSort (· ≤ ·) l).getD (l.length / 2) 0 ∈ l :=
      hperm.mem_iff.mp (getD_mem_of_lt_nat hidx)
    refine ⟨(List.insertionSort (· ≤ ·) l).getD (l.length / 2) 0, hmem,
      (List.insertionSort (· ≤ ·) l).getD (l.length / 2) 0, hmem, ?_⟩
    ring
  · rw [if_neg hodd]
    have hi1 : l.length / 2 - 1 < (List.insertionSort (· ≤ ·) l).length := by
      rw [hlen]
      omega
    have hi2 : l.length / 2 < (List.insertionSort (· ≤ ·) l).length := by
      rw [hlen]
      omega
    exact ⟨(List.insertionSort (· ≤ ·) l).getD (l.length / 2 - 1) 0,
      hperm.mem_iff.mp (getD_mem_of_lt_nat hi1),
      (List.insertionSort (· ≤ ·) l).getD (l.length / 2) 0,
      hperm.mem_iff.mp (getD_mem_of_lt_nat hi2), rfl⟩

/-- If all members of a list pairwise differ by at most `c`, every member is
within `c` of the median. -/
lemma medianQ_dist_le (l : List ℕ) (hne : l ≠ []) (c : ℚ)
    (hc : ∀ a ∈ l, ∀ b ∈ l, |(a : ℚ) - (b : ℚ)| ≤ c) :
    ∀ x ∈ l, |(x : ℚ) - medianQ l| ≤ c := by
  intro x hx
  rcases medianQ_between l hne with ⟨a, ha, b, hb, hm⟩
  rw [hm]
  have h1 := hc x hx a ha
  have h2 := hc x hx b hb
  have hsplit : (x : ℚ) - ((a : ℚ) + (b : ℚ)) / 2 =
      (((x : ℚ) - (a : ℚ)) + ((x : ℚ) - (b : ℚ))) / 2 := by
    ring
  rw [hsplit, abs_div, abs_two]
  have habs : |((x : ℚ) - (a : ℚ)) + ((x : ℚ) - (b : ℚ))| ≤
      |(x : ℚ) - (a : ℚ)| + |(x : ℚ) - (b : ℚ)| := abs_add _ _
  linarith

/-! ## Claim C2 -/

/-- C2 (confirmed): two-stage outlier rejection — stage 1 keeps exactly the
candidates within 100px of the median of all candidates; if none survive the
frame falls back to the mixture-top row with a 0% reading and detection for
the frame ends; otherwise stage 2 keeps exactly the stage-1 survivors within
30px of the recomputed median.  A point farther than 100px from the median
is rejected at stage 1; a set whose points pairwise lie within 10px survives
both stages unchanged. -/
theorem C2_two_stage_rejection (red_dots : List Dot) (hne : red_dots ≠ []) :
    C2Statement red_dots := by
  have heq := reject_outliers_eq red_dots hne
  refine ⟨?_, ?_, ?_, ?_, ?_⟩
  · intro h0
    rw [heq, if_pos h0]
  · intro hns
    rw [heq, if_neg hns]
  · intro d hd hfar
    have hd1 : d ∉ stage1Valid red_dots := by
      intro hmem
      rw [stage1Valid, List.mem_filter, decide_eq_true_eq] at hmem
      exact absurd hmem.2 (not_le.mpr hfar)
    refine ⟨hd1, ?_, ?_⟩
    · by_cases h0 : stage1Valid red_dots = []
      · rw [heq, if_pos h0]
        simp
      · rw [heq, if_neg h0]
        intro hmem
        exact hd1 (List.mem_of_mem_filter hmem)
    · by_cases h0 : stage1Valid red_dots = []
      · rw [heq, if_pos h0]
        exact hd
      · rw [heq, if_neg h0]
        apply List.mem_append_left
        rw [List.mem_filter, decide_eq_true_eq]
        exact ⟨hd, not_le.mpr hfar⟩
  · intro hclose
    have hmapne : red_dots.map Dot.y ≠ [] := by
      intro hc
      exact hne (List.map_eq_nil_iff.mp hc)
    have h10 : ∀ d ∈ red_dots, |(d.y : ℚ) - medianQ (red_dots.map Dot.y)| ≤ 10 := by
      intro d hd
      apply medianQ_dist_le (red_dots.map Dot.y) hmapne 10
      · intro a ha b hb
        rcases List.mem_map.mp ha with ⟨da, hda, hda2⟩
        rcases List.mem_map.mp hb with ⟨db, hdb, hdb2⟩
        rw [← hda2, ← hdb2]
        exact hclose da hda db hdb
      · exact List.mem_map.mpr ⟨d, hd, rfl⟩
    have hs1 : stage1Valid red_dots = red_dots := by
      rw [stage1Valid, List.filter_eq_self]
      intro d hd
      rw [decide_eq_true_eq]
      exact le_trans (h10 d hd) (by norm_num [OUTLIER_THRESHOLD_EXTREME])
    have hns : stage1Valid red_dots ≠ [] := by
      rw [hs1]
      exact hne
    rw [heq, if_neg hns, hs1]
    have hf2 : (red_dots.filter fun d =>
        |(d.y : ℚ) - medianQ (red_dots.map Dot.y)| ≤ (OUTLIER_THRESHOLD_MODERATE : ℚ)) =
        red_dots := by
      rw [List.filter_eq_self]
      intro d hd
      rw [decide_eq_true_eq]
      exact le_trans (h10 d hd) (by norm_num [OUTLIER_THRESHOLD_MODERATE])
    have hr1 : (red_dots.filter fun d =>
        ¬ |(d.y : ℚ) - medianQ (red_dots.map Dot.y)| ≤
          (OUTLIER_THRESHOLD_EXTREME : ℚ)) = [] := by
      rw [List.filter_eq_nil_iff]
      intro d hd
      rw [decide_eq_true_eq, not_not]
      exact le_trans (h10 d hd) (by norm_num [OUTLIER_THRESHOLD_EXTREME])
    have hr2 : (red_dots.filter fun d =>
        ¬ |(d.y : ℚ) - medianQ (red_dots.map Dot.y)| ≤
          (OUTLIER_THRESHOLD_MODERATE : ℚ)) = [] := by
      rw [List.filter_eq_nil_iff]
      intro d hd
      rw [decide_eq_true_eq, not_not]
      exact le_trans (h10 d hd) (by norm_num [OUTLIER_THRESHOLD_MODERATE])
    rw [hf2, hr1, hr2]
    rfl
  · intro img mixtureTopY xPositions hscan h0
    have hvalid : reject_outliers red_dots = ([], red_dots) := by
      rw [heq, if_pos h0]
    unfold detectFrame
    rw [hscan]
    simp [hvalid]

/-- Witness for C2 on a concrete candidate set (two clustered points and one
extreme outlier 150px away). -/
theorem C2_two_stage_rejection_witness :
    ([⟨0, 200⟩, ⟨7, 210⟩, ⟨14, 355⟩] : List Dot) ≠ [] ∧
      C2Statement [⟨0, 200⟩, ⟨7, 210⟩, ⟨14, 355⟩] :=
  ⟨by decide, C2_two_stage_rejection [⟨0, 200⟩, ⟨7, 210⟩, ⟨14, 355⟩] (by decide)⟩
